import Mathlib

/-!
Verification development for the AiApply document-parser-service.

The Python sources under `document-parser-service/` are shallowly embedded
below: pure string manipulation becomes Lean functions on `String` /
`List Char`, the segmenter's mutable `used_lines` set becomes an explicit
accumulator threaded through the extraction steps, and the network calls to
the external model are abstracted as oracle parameters (the surrounding
deterministic control flow is embedded faithfully).
-/

namespace AiApply

/-! ### Python string primitives -/

/-- Python `str.lower()` (ASCII inputs). -/
def pyLower (s : String) : String := ⟨s.data.map Char.toLower⟩

/-- Python `str.strip()` with no arguments: trim whitespace on both ends. -/
def pyStrip (s : String) : String :=
  ⟨((s.data.dropWhile Char.isWhitespace).reverse.dropWhile Char.isWhitespace).reverse⟩

/-- Split a character list at every separator recognised by `p`, keeping
empty pieces (the semantics of Python `str.split(sep)`); `acc` holds the
current piece reversed. -/
def splitCharsOn (p : Char → Bool) : List Char → List Char → List (List Char)
  | acc, [] => [acc.reverse]
  | acc, c :: cs =>
    if p c then acc.reverse :: splitCharsOn p [] cs
    else splitCharsOn p (c :: acc) cs

/-- Does `hay` start with `needle` (character-list level)? -/
def startsWithChars : List Char → List Char → Bool
  | [], _ => true
  | _ :: _, [] => false
  | a :: as, b :: bs => a == b && startsWithChars as bs

/-- Python substring containment `needle in hay`, on character lists. -/
def containsChars (needle : List Char) : List Char → Bool
  | [] => startsWithChars needle []
  | c :: rest => startsWithChars needle (c :: rest) || containsChars needle rest

/-- Python substring containment `needle in hay` on strings. -/
def containsSub (needle hay : String) : Bool := containsChars needle.data hay.data

/-- Python slicing `s[:n]` (first `n` characters). -/
def pyTakeChars (n : Nat) (s : String) : String := ⟨s.data.take n⟩

/-- Python `str.split()` with no arguments: split on whitespace runs, no empties. -/
def pySplitWS (s : String) : List String :=
  ((splitCharsOn Char.isWhitespace [] s.data).map (fun cs => (⟨cs⟩ : String))).filter (· ≠ "")

/-- Python `any(char.isdigit() for char in s)` (ASCII digits). -/
def anyDigit (s : String) : Bool := s.data.any Char.isDigit

/-- Worker for `pyIsTitle`: tracks whether the previous character was cased
and whether any cased character has been seen. -/
def pyIsTitleGo : List Char → Bool → Bool → Bool
  | [], _, seen => seen
  | c :: cs, prevCased, seen =>
    if c.isUpper then
      if prevCased then false else pyIsTitleGo cs true true
    else if c.isLower then
      if prevCased then pyIsTitleGo cs true true else false
    else pyIsTitleGo cs false seen

/-- Python `str.istitle()` (ASCII inputs): every cased run starts uppercase,
and at least one cased character occurs. -/
def pyIsTitle (s : String) : Bool := pyIsTitleGo s.data false false

/-- Python `sep.join(parts)`. -/
def joinWith (sep : String) : List String → String
  | [] => ""
  | [a] => a
  | a :: b :: rest => a ++ sep ++ joinWith sep (b :: rest)

/-- Python `'\n'.join(parts)`. -/
def joinNL (parts : List String) : String := joinWith "\n" parts

/-- Python `' '.join(parts)`. -/
def joinSP (parts : List String) : String := joinWith " " parts

/-! ### Data model (the pydantic models shared by the service) -/

/-- `ResumeSection` from `ollama_resume_analyzer.py` (also used by
`main_old.py`; the `ai_ats_scorer.py` copy lacks `confidence`, which the
scorer never reads, so one structure serves both).  The float `confidence`
carries only the literal constants 0.9 / 0.8 / 0.7 / 0.6, modelled in `ℚ`. -/
structure ResumeSection where
  type : String
  title : String
  content : String
  confidence : ℚ
deriving DecidableEq, Repr

/-- `ATSScore`: `category_scores` is a `Dict[str, int]` in the source,
modelled as an association list preserving insertion order. -/
structure ATSScore where
  overall_score : Int
  category_scores : List (String × Int)
  suggestions : List String
  strengths : List String
deriving DecidableEq, Repr

/-- `CompleteResumeAnalysis` from `ollama_resume_analyzer.py`; the measured
wall-clock `processing_time` float is carried opaquely as a rational. -/
structure CompleteResumeAnalysis where
  success : Bool
  filename : String
  sections : List ResumeSection
  ats_analysis : ATSScore
  raw_text : String
  processing_time : ℚ
deriving DecidableEq, Repr

/-! ### Section segmenter (`DocumentParser` in `main_old.py`)

Each `_extract_*_with_tracking` helper returns `(content, used_indices)`
exactly as the source does.  The segmenter's mutable `used_lines` set is
threaded explicitly as a `List Nat` accumulator (only membership queries are
performed on it, so a list models the Python set faithfully). -/

/-- Line condition of `_extract_personal_info_with_tracking`: e-mail/URL
fragments, phone/profile keywords, any digit in a line longer than 8
characters, or a location word. -/
def personalLineCond (l : String) : Bool :=
  (["@", ".com", ".org", ".net"].any (fun p => containsSub p l)) ||
  (["phone", "mobile", "tel", "linkedin", "github"].any
      (fun p => containsSub p (pyLower l))) ||
  (anyDigit l && decide (8 < l.length)) ||
  (["india", "usa", "uk", "canada", "city", "state"].any
      (fun p => containsSub p (pyLower l)))

/-- Worker for `_extract_personal_info_with_tracking`, over the first ten
lines with their indices. -/
def extractPersonalGo : Nat → List String → (List String × List Nat)
  | _, [] => ([], [])
  | i, l :: ls =>
    let rest := extractPersonalGo (i + 1) ls
    if personalLineCond l then (l :: rest.1, i :: rest.2)
    else if i == 0 && decide ((pySplitWS l).length ≤ 4) && pyIsTitle l then
      (l :: rest.1, i :: rest.2)
    else rest

/-- `_extract_personal_info_with_tracking`: scan `lines[:10]` for contact
patterns (or a short title-cased name on line 0). -/
def extractPersonalInfoWithTracking (lines : List String) : String × List Nat :=
  let r := extractPersonalGo 0 (lines.take 10)
  (joinNL r.1, r.2)

/-- Worker shared by the four modal extractors
(`_extract_summary/education/skills/projects_with_tracking`): an in/out mode
triggered by `startKws`, ended by `endKws`, where a trigger line is claimed
only when its lowered-stripped text is not literally in `notIn`. -/
def extractModalGo (used : List Nat) (startKws notIn endKws : List String) :
    Bool → Nat → List String → (List String × List Nat)
  | _, _, [] => ([], [])
  | inMode, i, l :: ls =>
    if i ∈ used then extractModalGo used startKws notIn endKws inMode (i + 1) ls
    else
      let ll := pyStrip (pyLower l)
      if startKws.any (fun k => containsSub k ll) then
        let rest := extractModalGo used startKws notIn endKws true (i + 1) ls
        if notIn.contains ll then rest else (l :: rest.1, i :: rest.2)
      else if inMode && endKws.any (fun k => containsSub k ll) then ([], [])
      else if inMode && !(pyStrip l == "") then
        let rest := extractModalGo used startKws notIn endKws inMode (i + 1) ls
        (l :: rest.1, i :: rest.2)
      else extractModalGo used startKws notIn endKws inMode (i + 1) ls

/-- `_extract_summary_with_tracking`. -/
def extractSummaryWithTracking (lines : List String) (used : List Nat) :
    String × List Nat :=
  let r := extractModalGo used ["objective", "summary", "profile", "about"]
      ["objective", "summary", "profile", "about"]
      ["experience", "education", "skills", "projects"] false 0 lines
  (joinNL r.1, r.2)

/-- Line condition of `_extract_all_experience` ("aggressive work experience
detection"): `l` is the raw line, `ll` its lowered-stripped form. -/
def isWorkContent (l ll : String) : Bool :=
  (["experience", "work", "employment", "career"].any (fun k => containsSub k ll)) ||
  (["developer", "engineer", "manager", "analyst", "consultant", "lead",
    "senior"].any (fun k => containsSub k ll)) ||
  (["corp", "inc", "ltd", "company", "technologies", "systems"].any
      (fun k => containsSub k ll)) ||
  (["led", "managed", "developed", "built", "implemented", "delivered",
    "improved"].any (fun k => containsSub k ll)) ||
  ((["2020", "2021", "2022", "2023", "2024"].any (fun y => containsSub y l)) &&
   (["present", "current", "-", "to"].any (fun k => containsSub k ll))) ||
  (["agile", "team", "client", "project", "system", "application"].any
      (fun k => containsSub k ll))

/-- Worker for `_extract_all_experience`. -/
def extractExperienceGo (used : List Nat) : Nat → List String → (List String × List Nat)
  | _, [] => ([], [])
  | i, l :: ls =>
    if i ∈ used then extractExperienceGo used (i + 1) ls
    else
      let rest := extractExperienceGo used (i + 1) ls
      if isWorkContent l (pyStrip (pyLower l)) then (l :: rest.1, i :: rest.2)
      else rest

/-- `_extract_all_experience`. -/
def extractAllExperience (lines : List String) (used : List Nat) :
    String × List Nat :=
  let r := extractExperienceGo used 0 lines
  (joinNL r.1, r.2)

/-- `_extract_education_with_tracking`. -/
def extractEducationWithTracking (lines : List String) (used : List Nat) :
    String × List Nat :=
  let r := extractModalGo used
      ["education", "academic", "qualification", "degree", "university", "college"]
      ["education", "academic background", "qualifications"]
      ["skills", "projects", "experience", "additional"] false 0 lines
  (joinNL r.1, r.2)

/-- `_extract_skills_with_tracking`. -/
def extractSkillsWithTracking (lines : List String) (used : List Nat) :
    String × List Nat :=
  let r := extractModalGo used ["skills", "technical", "competenc", "technolog"]
      ["skills", "technical skills", "competencies", "technologies"]
      ["projects", "experience", "education", "additional"] false 0 lines
  (joinNL r.1, r.2)

/-- `_extract_projects_with_tracking`. -/
def extractProjectsWithTracking (lines : List String) (used : List Nat) :
    String × List Nat :=
  let r := extractModalGo used ["projects", "portfolio"]
      ["projects", "portfolio", "key projects"]
      ["additional", "other", "leadership"] false 0 lines
  (joinNL r.1, r.2)

/-- Worker shared by the two `_extract_*_from_remaining` salvage passes: claim
every unused, non-blank line satisfying `cond` (applied to the
lowered-stripped line). -/
def extractRemainingGo (used : List Nat) (cond : String → Bool) :
    Nat → List String → (List String × List Nat)
  | _, [] => ([], [])
  | i, l :: ls =>
    if i ∈ used || pyStrip l == "" then extractRemainingGo used cond (i + 1) ls
    else
      let rest := extractRemainingGo used cond (i + 1) ls
      if cond (pyStrip (pyLower l)) then (l :: rest.1, i :: rest.2) else rest

/-- `_extract_education_from_remaining`. -/
def extractEducationFromRemaining (lines : List String) (used : List Nat) :
    String × List Nat :=
  let r := extractRemainingGo used (fun ll =>
    (["education", "academic background", "qualifications"].contains ll) ||
    (["degree", "university", "college", "bachelor", "master", "phd", "diploma",
      "certification", "gpa"].any (fun k => containsSub k ll))) 0 lines
  (joinNL r.1, r.2)

/-- `_extract_skills_from_remaining`. -/
def extractSkillsFromRemaining (lines : List String) (used : List Nat) :
    String × List Nat :=
  let r := extractRemainingGo used (fun ll =>
    (["skills", "technical skills", "competencies", "technologies"].contains ll) ||
    (["programming", "languages", "frameworks", "tools", "software", "database",
      "cloud", "aws", "python", "java", "javascript", "react", "node"].any
        (fun k => containsSub k ll))) 0 lines
  (joinNL r.1, r.2)

/-- Header echoes filtered out by `_extract_clean_additional_info`. -/
def additionalHeaderEchoes : List String :=
  ["objective", "education", "skills", "experience", "projects", "summary",
   "work experience", "technical skills", "professional summary"]

/-- Inclusion condition of `_extract_clean_additional_info` on the
lowered-stripped line `ll` and the raw line `l`. -/
def additionalLineCond (l ll : String) : Bool :=
  (["leadership", "additional", "other", "activities", "interests", "hobbies",
    "http", "www", ".com", "portfolio", "website"].any
      (fun k => containsSub k ll)) ||
  (!(["developer", "engineer", "manager", "led", "built", "developed",
      "implemented", "delivered", "improved", "corp", "inc", "company", "2020",
      "2021", "2022", "2023", "2024", "education", "degree", "university",
      "college", "skills", "programming", "languages", "frameworks",
      "objective", "summary"].any (fun k => containsSub k ll)) &&
    decide (3 < (pyStrip l).length))

/-- Worker for `_extract_clean_additional_info`.  The source returns only the
joined content; the claimed indices are recorded alongside so that the
disjointness invariant can be stated (they are exactly the positions of the
collected lines). -/
def extractAdditionalGo (used : List Nat) : Nat → List String → (List String × List Nat)
  | _, [] => ([], [])
  | i, l :: ls =>
    if i ∈ used || pyStrip l == "" then extractAdditionalGo used (i + 1) ls
    else
      let ll := pyStrip (pyLower l)
      if additionalHeaderEchoes.contains ll then extractAdditionalGo used (i + 1) ls
      else
        let rest := extractAdditionalGo used (i + 1) ls
        if additionalLineCond l ll then (l :: rest.1, i :: rest.2) else rest

/-- `_extract_clean_additional_info`, instrumented with the claimed indices. -/
def extractCleanAdditionalInfoIdx (lines : List String) (used : List Nat) :
    String × List Nat :=
  let r := extractAdditionalGo used 0 lines
  (joinNL r.1, r.2)

/-- One step of `_create_structured_resume`: when `c` holds (the extracted
content is non-empty, plus any salvage-pass guard) the section is appended
and its indices join the `used_lines` accumulator; otherwise nothing
changes. -/
def stepAppend (secs : List (ResumeSection × List Nat)) (used : List Nat)
    (c : Prop) [Decidable c] (sec : ResumeSection) (idx : List Nat) :
    List (ResumeSection × List Nat) × List Nat :=
  if c then (secs ++ [(sec, idx)], used ++ idx) else (secs, used)

/-- The nine extraction passes of `_create_structured_resume`, in source
order, each section tagged with the line indices it claimed.  The two salvage
extractors are evaluated unconditionally (they are pure); their results are
used only under the source's "type not yet present" guard.  The final
additional-information section is appended without updating `used_lines`,
exactly as in the source. -/
def structuredPasses (lines : List String) :
    List (ResumeSection × List Nat) × List Nat :=
  let p := extractPersonalInfoWithTracking lines
  let st1 := stepAppend [] [] (p.1 ≠ "")
    ⟨"personal", "Personal Information", p.1, 9/10⟩ p.2
  let s := extractSummaryWithTracking lines st1.2
  let st2 := stepAppend st1.1 st1.2 (s.1 ≠ "")
    ⟨"summary", "Professional Summary", s.1, 9/10⟩ s.2
  let e := extractAllExperience lines st2.2
  let st3 := stepAppend st2.1 st2.2 (e.1 ≠ "")
    ⟨"experience", "Work Experience", e.1, 9/10⟩ e.2
  let ed := extractEducationWithTracking lines st3.2
  let st4 := stepAppend st3.1 st3.2 (ed.1 ≠ "")
    ⟨"education", "Education", ed.1, 9/10⟩ ed.2
  let sk := extractSkillsWithTracking lines st4.2
  let st5 := stepAppend st4.1 st4.2 (sk.1 ≠ "")
    ⟨"skills", "Technical Skills", sk.1, 9/10⟩ sk.2
  let pr := extractProjectsWithTracking lines st5.2
  let st6 := stepAppend st5.1 st5.2 (pr.1 ≠ "")
    ⟨"projects", "Projects", pr.1, 9/10⟩ pr.2
  let er := extractEducationFromRemaining lines st6.2
  let st7 := stepAppend st6.1 st6.2
    (st6.1.any (fun q => q.1.type == "education") = false ∧ er.1 ≠ "")
    ⟨"education", "Education", er.1, 8/10⟩ er.2
  let sr := extractSkillsFromRemaining lines st7.2
  let st8 := stepAppend st7.1 st7.2
    (st7.1.any (fun q => q.1.type == "skills") = false ∧ sr.1 ≠ "")
    ⟨"skills", "Technical Skills", sr.1, 8/10⟩ sr.2
  let ad := extractCleanAdditionalInfoIdx lines st8.2
  (st8.1 ++ (if ad.1 ≠ "" then
      [(⟨"additional", "Additional Information", ad.1, 8/10⟩, ad.2)] else []),
   st8.2)

/-- `_create_basic_sections`, tagged with the line-index ranges of the three
position-based slices.  Python's `int(total_lines * 0.6)` equals
`3 * total / 5` (floor) for every document size arising here: the rounding
error of the double `0.6` is orders of magnitude below the rounding step of
`float → int` truncation at these magnitudes. -/
def basicSectionsTagged (lines : List String) :
    List (ResumeSection × List Nat) :=
  let total := lines.length
  let personalEnd := min (max 5 (total / 5)) 10
  let s1 : List (ResumeSection × List Nat) :=
    if 0 < personalEnd then
      [(⟨"personal", "Personal Information", joinNL (lines.take personalEnd), 8/10⟩,
        List.range' 0 (min personalEnd total))]
    else []
  let expStart := personalEnd
  let expEnd := min total (expStart + 3 * total / 5)
  let s2 : List (ResumeSection × List Nat) :=
    if expStart < expEnd then
      [(⟨"experience", "Work Experience",
        joinNL ((lines.drop expStart).take (expEnd - expStart)), 7/10⟩,
        List.range' expStart (expEnd - expStart))]
    else []
  let s3 : List (ResumeSection × List Nat) :=
    if expEnd < total then
      [(⟨"skills", "Skills & Additional Information", joinNL (lines.drop expEnd), 7/10⟩,
        List.range' expEnd (total - expEnd))]
    else []
  s1 ++ s2 ++ s3

/-- `_create_structured_resume`: the nine passes, falling back to
`_create_basic_sections` when they produce nothing. -/
def createStructuredResumeTagged (lines : List String) :
    List (ResumeSection × List Nat) :=
  let r := structuredPasses lines
  if r.1 = [] then basicSectionsTagged lines else r.1

/-- The section list as returned by `_create_structured_resume`. -/
def createStructuredResume (lines : List String) : List ResumeSection :=
  (createStructuredResumeTagged lines).map (fun q => q.1)

/-- Line preprocessing of `parse_resume_text`:
`[line.strip() for line in text.split('\n') if line.strip()]`. -/
def preprocessLines (text : String) : List String :=
  (((splitCharsOn (fun c => c == '\n') [] text.data).map
      (fun cs => pyStrip (⟨cs⟩ : String))).filter (fun l => l ≠ ""))

/-- `parse_resume_text` (via `_simple_section_parsing`). -/
def parseResumeText (text : String) : List ResumeSection :=
  let lines := preprocessLines text
  if lines = [] then [] else createStructuredResume lines

/-! ### Rule-based ATS scorer (`AIATSScorer._enhanced_fallback_analysis`) -/

/-- Tech keywords of `_enhanced_fallback_analysis`. -/
def techKeywords : List String :=
  ["python", "javascript", "react", "node", "sql", "aws", "docker", "git",
   "java", "c++", "html", "css", "api", "rest", "agile", "scrum"]

/-- Business keywords of `_enhanced_fallback_analysis`. -/
def businessKeywords : List String :=
  ["management", "leadership", "strategy", "analysis", "project", "team",
   "client", "sales", "marketing", "operations"]

/-- Generic padding suggestions of `_enhanced_fallback_analysis`. -/
def fallbackPadSuggestions : List String :=
  ["Use action verbs to start bullet points in your experience section",
   "Tailor your resume keywords to match specific job descriptions",
   "Consider adding a professional summary highlighting your key strengths",
   "Include relevant certifications or professional development courses"]

/-- Python `for s in pool: if s not in base: base.append(s); if len(base) >= 4: break`. -/
def padTo4 (base : List String) : List String → List String
  | [] => base
  | s :: rest =>
    if base.contains s then padTo4 base rest
    else
      let base' := base ++ [s]
      if 4 ≤ base'.length then base' else padTo4 base' rest

/-- `format_structure` category of `_enhanced_fallback_analysis`. -/
def catFormatStructure (sections : List ResumeSection) : Int :=
  (if (sections.map (fun s => s.type)).contains "personal" then 8 else 0) +
  (if ["summary", "objective"].any
      (fun t => (sections.map (fun s => s.type)).contains t) then 7 else 0) +
  (if 4 ≤ sections.length ∧ sections.length ≤ 8 then 10 else 0)

/-- `keywords_skills` category of `_enhanced_fallback_analysis`:
`allText` is the space-join of all lowered section contents. -/
def catKeywordsSkills (sections : List ResumeSection) (allText : String) : Int :=
  (match sections.find? (fun s => s.type == "skills") with
   | some skillsSection =>
     if 10 < (pySplitWS skillsSection.content).length then 15 else 0
   | none => 0) +
  min 10 (((techKeywords ++ businessKeywords).filter
      (fun k => containsSub k allText)).length : Int)

/-- `experience_relevance` category of `_enhanced_fallback_analysis`. -/
def catExperienceRelevance (sections : List ResumeSection) : Int :=
  match sections.find? (fun s => s.type == "experience") with
  | some experienceSection =>
    (if ["years", "year", "months", "2020", "2021", "2022", "2023", "2024"].any
        (fun w => containsSub w (pyLower experienceSection.content)) then 8 else 0) +
    (if ["led", "managed", "developed", "created", "implemented", "designed",
         "improved", "increased", "delivered", "built"].any
        (fun v => containsSub v (pyLower experienceSection.content)) then 8 else 0) +
    (if (["%", "$", "#"].any (fun c => containsSub c (pyLower experienceSection.content))) ∨
        (["million", "thousand", "percent", "increased", "reduced",
          "improved"].any (fun w => containsSub w (pyLower experienceSection.content)))
     then 9 else 0)
  | none => 0

/-- `contact_info` category of `_enhanced_fallback_analysis`. -/
def catContactInfo (sections : List ResumeSection) : Int :=
  match sections.find? (fun s => s.type == "personal") with
  | some personalSection =>
    (if containsSub "@" (pyLower personalSection.content) ∧
        containsSub "." (pyLower personalSection.content) then 8 else 0) +
    (if (["+", "(", "-"].any (fun c => containsSub c (pyLower personalSection.content))) ∨
        containsSub "phone" (pyLower personalSection.content) then 8 else 0) +
    (if containsSub "linkedin" (pyLower personalSection.content) then 5 else 0) +
    (if ["github", "portfolio", "website"].any
        (fun p => containsSub p (pyLower personalSection.content)) then 4 else 0)
  | none => 0

/-- `education_credentials` category of `_enhanced_fallback_analysis`. -/
def catEducationCredentials (sections : List ResumeSection) : Int :=
  match sections.find? (fun s => s.type == "education") with
  | some educationSection =>
    (if ["bachelor", "master", "phd", "doctorate"].any
        (fun d => containsSub d (pyLower educationSection.content)) then 15
     else if ["associate", "diploma", "certificate"].any
        (fun d => containsSub d (pyLower educationSection.content)) then 10
     else 0) +
    (if ["university", "college", "institute"].any
        (fun w => containsSub w (pyLower educationSection.content)) then 5 else 0) +
    (if ["gpa", "honors", "magna", "summa", "dean"].any
        (fun w => containsSub w (pyLower educationSection.content)) then 5 else 0)
  | none => 0

/-- Targeted suggestions of `_enhanced_fallback_analysis` (in source order). -/
def fallbackSuggestionsBase (ci ks er fs : Int) : List String :=
  (if ci < 15 then
    ["Add complete contact information including professional email, phone number, and LinkedIn profile"]
   else []) ++
  (if ks < 15 then
    ["Include more industry-relevant keywords and technical skills to improve ATS compatibility"]
   else []) ++
  (if er < 15 then
    ["Add quantifiable achievements with specific metrics (e.g., \x27Increased sales by 25%\x27, \x27Led team of 8\x27)"]
   else []) ++
  (if fs < 15 then
    ["Improve resume structure with clear section headers and consistent formatting"]
   else [])

/-- Strength statements of `_enhanced_fallback_analysis` (in source order). -/
def fallbackStrengthsBase (ci er ks fs : Int) : List String :=
  (if 20 ≤ ci then ["Complete and professional contact information"] else []) ++
  (if 20 ≤ er then ["Strong work experience with quantifiable achievements"] else []) ++
  (if 20 ≤ ks then ["Good technical and industry keyword coverage"] else []) ++
  (if 20 ≤ fs then ["Well-structured and organized resume format"] else [])

/-- `AIATSScorer._enhanced_fallback_analysis` (normal, non-raising path). -/
def enhancedFallbackAnalysis (sections : List ResumeSection) : ATSScore :=
  let allText := joinSP (sections.map (fun s => pyLower s.content))
  let fs := catFormatStructure sections
  let ks := catKeywordsSkills sections allText
  let er := catExperienceRelevance sections
  let ci := catContactInfo sections
  let ec := catEducationCredentials sections
  let overall := fs + ks + er + ci + ec
  let suggestions0 := fallbackSuggestionsBase ci ks er fs
  let strengths0 := fallbackStrengthsBase ci er ks fs
  let suggestions :=
    if suggestions0.length < 3 then padTo4 suggestions0 fallbackPadSuggestions
    else suggestions0
  let strengths :=
    if strengths0 = [] then
      ["Professional resume structure", "Clear section organization"]
    else strengths0
  { overall_score := min 100 overall
    category_scores :=
      [("format_structure", fs), ("keywords_skills", ks),
       ("experience_relevance", er), ("contact_info", ci),
       ("education_credentials", ec)]
    suggestions := suggestions.take 4
    strengths := strengths.take 3 }

/-! ### Model-reply sanitisation (the two model-assisted score builders)

The JSON text produced by the external model is abstracted as the already
parsed dictionary: `ParsedATS` holds, for each key the builders read, the
value found (`some`) or its absence (`none`).  `category_scores` is the raw
parsed sub-dictionary as an association list. -/

/-- A successfully parsed model scoring reply. -/
structure ParsedATS where
  overall_score : Option Int
  category_scores : Option (List (String × Int))
  suggestions : Option (List String)
  strengths : Option (List String)
deriving DecidableEq, Repr

/-- Python `assoc.get(key, default)` on an association-list dictionary. -/
def dictGetD (d : List (String × Int)) (k : String) (dflt : Int) : Int :=
  match d.find? (fun q => q.1 == k) with
  | some q => q.2
  | none => dflt

/-- The `ATSScore` built by `AIATSScorer.analyze_resume` from a parsed model
reply: every numeric field is clamped (`max(0, min(100, ...))` resp.
`max(0, min(25, ...))`), list fields truncated to 4 / 3 with generic
defaults. -/
def buildATSFromAIParsed (p : ParsedATS) : ATSScore :=
  let cs := p.category_scores.getD []
  { overall_score := max 0 (min 100 (p.overall_score.getD 70))
    category_scores :=
      [("format_structure", max 0 (min 25 (dictGetD cs "format_structure" 15))),
       ("keywords_skills", max 0 (min 25 (dictGetD cs "keywords_skills" 15))),
       ("experience_relevance", max 0 (min 25 (dictGetD cs "experience_relevance" 15))),
       ("contact_info", max 0 (min 25 (dictGetD cs "contact_info" 12))),
       ("education_credentials", max 0 (min 25 (dictGetD cs "education_credentials" 13)))]
    suggestions := (p.suggestions.getD
      ["Add more quantifiable achievements with specific metrics",
       "Include more industry-specific keywords and technical skills",
       "Ensure all contact information is complete and professional",
       "Use action verbs to start each bullet point in experience section"]).take 4
    strengths := (p.strengths.getD
      ["Professional resume structure",
       "Clear section organization"]).take 3 }

/-- The `ATSScore` built by `OllamaResumeAnalyzer.score_ats_with_ollama` from
a parsed model reply: `overall_score` and `category_scores` are copied
through unclamped; only the list fields are truncated. -/
def buildATSFromOllamaParsed (p : ParsedATS) : ATSScore :=
  { overall_score := p.overall_score.getD 75
    category_scores := p.category_scores.getD
      [("format_structure", 18), ("keywords_skills", 16),
       ("experience_relevance", 20), ("contact_info", 12),
       ("education_credentials", 9)]
    suggestions := (p.suggestions.getD
      ["Optimize resume format for better ATS compatibility",
       "Include more industry-specific keywords",
       "Add quantifiable achievements to experience",
       "Ensure contact information is complete"]).take 4
    strengths := (p.strengths.getD
      ["Professional resume structure",
       "Clear section organization"]).take 3 }

/-! ### Ollama analyzer (`ollama_resume_analyzer.py`) -/

/-- Python `str.upper()` (ASCII inputs). -/
def pyUpper (s : String) : String := ⟨s.data.map Char.toUpper⟩

/-- Header keywords of `_fallback_section_extraction`. -/
def fallbackHeaderKeywords : List String :=
  ["OBJECTIVE", "SUMMARY", "EXPERIENCE", "WORK", "EMPLOYMENT",
   "EDUCATION", "SKILLS", "PROJECTS", "ACHIEVEMENTS", "CERTIFICATIONS"]

/-- Header scan of `_fallback_section_extraction`: index and stripped text of
every line whose stripped-uppercased form is under 50 characters and contains
a header keyword. -/
def collectFallbackHeaders : Nat → List String → List (Nat × String)
  | _, [] => []
  | i, l :: ls =>
    let lineClean := pyUpper (pyStrip l)
    let rest := collectFallbackHeaders (i + 1) ls
    if decide (lineClean.length < 50) &&
        fallbackHeaderKeywords.any (fun k => containsSub k lineClean) then
      (i, pyStrip l) :: rest
    else rest

/-- `OllamaResumeAnalyzer._classify_section_type` (header-based). -/
def classifyHeaderSectionType (header : String) : String :=
  let headerLower := pyLower header
  if ["objective", "summary", "profile"].any (fun w => containsSub w headerLower) then
    "summary"
  else if ["experience", "work", "employment", "career"].any
      (fun w => containsSub w headerLower) then "experience"
  else if ["education", "academic", "degree"].any
      (fun w => containsSub w headerLower) then "education"
  else if ["skills", "technical", "competencies"].any
      (fun w => containsSub w headerLower) then "skills"
  else if ["projects", "portfolio"].any (fun w => containsSub w headerLower) then
    "projects"
  else "other"

/-- Section construction of `_fallback_section_extraction` from the collected
headers: each header owns the lines up to the next header. -/
def sectionsFromHeaders (lines : List String) :
    List (Nat × String) → List ResumeSection
  | [] => []
  | (i, h) :: rest =>
    let endIdx := match rest.head? with
      | some q => q.1
      | none => lines.length
    let content := pyStrip (joinNL ((lines.drop (i + 1)).take (endIdx - (i + 1))))
    (if content ≠ "" then
      [⟨classifyHeaderSectionType h, h, content, 8/10⟩] else []) ++
    sectionsFromHeaders lines rest

/-- `OllamaResumeAnalyzer._fallback_section_extraction`.  The raw text is
split on newlines without stripping or filtering; with no recognisable
headers a 15% / 60% / 25% position split is used.  Python's
`int(total * 0.15)` and `int(total * 0.6)` equal `3 * total / 20` and
`3 * total / 5` (floor) at these magnitudes. -/
def fallbackSectionExtraction (rawText : String) : List ResumeSection :=
  let lines := (splitCharsOn (fun c => c == '\n') [] rawText.data).map
    (fun cs => (⟨cs⟩ : String))
  let headers := collectFallbackHeaders 0 lines
  if headers ≠ [] then sectionsFromHeaders lines headers
  else
    let total := lines.length
    let personalEnd := max 5 (3 * total / 20)
    let personalContent := pyStrip (joinNL (lines.take personalEnd))
    let s1 : List ResumeSection :=
      if personalContent ≠ "" then
        [⟨"personal", "Personal Information", personalContent, 7/10⟩] else []
    let expStart := personalEnd
    let expEnd := expStart + 3 * total / 5
    let expContent := pyStrip (joinNL ((lines.drop expStart).take (expEnd - expStart)))
    let s2 : List ResumeSection :=
      if expContent ≠ "" then
        [⟨"experience", "Work Experience", expContent, 6/10⟩] else []
    let skillsContent := pyStrip (joinNL (lines.drop expEnd))
    let s3 : List ResumeSection :=
      if skillsContent ≠ "" then
        [⟨"skills", "Skills & Additional Information", skillsContent, 6/10⟩] else []
    s1 ++ s2 ++ s3

/-- `OllamaResumeAnalyzer._fallback_ats_scoring`. -/
def fallbackATSScoring (sections : List ResumeSection) : ATSScore :=
  let hasContact := sections.any (fun s =>
    containsSub "email" (pyLower s.content) || containsSub "phone" (pyLower s.content))
  let hasExperience := sections.any (fun s =>
    containsSub "experience" (pyLower s.title) || containsSub "work" (pyLower s.title))
  let hasSkills := sections.any (fun s => containsSub "skill" (pyLower s.title))
  let hasEducation := sections.any (fun s =>
    containsSub "education" (pyLower s.title) || containsSub "degree" (pyLower s.content))
  let totalWords := (sections.map (fun s => (pySplitWS s.content).length)).sum
  let contactScore : Int := if hasContact then 13 else 8
  let experienceScore : Int := if hasExperience then 22 else 15
  let skillsScore : Int := if hasSkills then 18 else 12
  let educationScore : Int := if hasEducation then 8 else 5
  let formatScore : Int := if 100 < totalWords then 20 else 15
  let overall := contactScore + experienceScore + skillsScore + educationScore + formatScore
  let suggestions0 :=
    (if !hasContact then
      ["Add complete contact information including email and phone number"] else []) ++
    (if !hasExperience then
      ["Include detailed work experience with quantifiable achievements"] else []) ++
    (if !hasSkills then
      ["Add a dedicated skills section with relevant technical skills"] else []) ++
    (if totalWords < 200 then
      ["Expand content with more detailed descriptions"] else [])
  let suggestions :=
    if suggestions0.length < 4 then
      suggestions0 ++
        ["Use action verbs and quantify achievements where possible",
         "Include industry-specific keywords for better ATS compatibility",
         "Ensure consistent formatting throughout the document",
         "Add relevant certifications or professional development"]
    else suggestions0
  { overall_score := min overall 100
    category_scores :=
      [("format_structure", formatScore), ("keywords_skills", skillsScore),
       ("experience_relevance", experienceScore), ("contact_info", contactScore),
       ("education_credentials", educationScore)]
    suggestions := suggestions.take 4
    strengths :=
      ["Resume follows standard professional format",
       "Content is well-organized and readable"] }

/-- A parsed `sections` entry of the model's section-extraction reply; each
field is `none` when the key is missing. -/
structure ParsedSectionData where
  type : Option String
  title : Option String
  content : Option String
deriving DecidableEq, Repr

/-- `OllamaResumeAnalyzer.extract_sections_with_ollama`.  The model call and
the three-tier JSON recovery are abstracted by `outcome`: `some secs` means a
reply parsed to a dictionary with a `sections` list, `none` means the call
raised or no strategy produced one (both paths return the rule-based fallback
extraction). -/
def extractSectionsWithOllama (rawText : String)
    (outcome : Option (List ParsedSectionData)) : List ResumeSection :=
  match outcome with
  | some parsedSections =>
    parsedSections.map (fun d =>
      ⟨d.type.getD "other", d.title.getD "Unknown Section", d.content.getD "", 9/10⟩)
  | none => fallbackSectionExtraction rawText

/-- `OllamaResumeAnalyzer.score_ats_with_ollama`: a parsed reply is copied
through `buildATSFromOllamaParsed`; any failure falls back to
`_fallback_ats_scoring`. -/
def scoreATSWithOllama (sections : List ResumeSection)
    (outcome : Option ParsedATS) : ATSScore :=
  match outcome with
  | some p => buildATSFromOllamaParsed p
  | none => fallbackATSScoring sections

/-- `OllamaResumeAnalyzer.analyze_complete_resume`.  `crash` models an
exception escaping the two analysis steps inside the `try` block (both steps
swallow their own model/parse failures internally, so this covers only
unexpected errors, e.g. validation failures); the wall-clock measurement is
the opaque parameter `t`. -/
def analyzeCompleteResume (rawText filename : String)
    (secOutcome : Option (List ParsedSectionData)) (atsOutcome : Option ParsedATS)
    (crash : Bool) (t : ℚ) : CompleteResumeAnalysis :=
  if crash then
    let fallbackSections := fallbackSectionExtraction rawText
    { success := false
      filename := filename
      sections := fallbackSections
      ats_analysis := fallbackATSScoring fallbackSections
      raw_text := rawText
      processing_time := t }
  else
    let sections := extractSectionsWithOllama rawText secOutcome
    { success := true
      filename := filename
      sections := sections
      ats_analysis := scoreATSWithOllama sections atsOutcome
      raw_text := rawText
      processing_time := t }

/-! ### HTTP endpoints (`main.py`) -/

/-- The `/analyze-resume` handler after text extraction: an upload whose
extracted text is blank after trimming is rejected with the 400 error
`"No text content found in file"`; otherwise the Ollama analysis runs. -/
def analyzeResumeEndpoint (rawText filename : String)
    (secOutcome : Option (List ParsedSectionData)) (atsOutcome : Option ParsedATS)
    (crash : Bool) (t : ℚ) : Except String CompleteResumeAnalysis :=
  if pyStrip rawText = "" then Except.error "No text content found in file"
  else Except.ok (analyzeCompleteResume rawText filename secOutcome atsOutcome crash t)

/-- The legacy `/parse-resume` response shape: the analysis fields plus a
two-entry metadata dictionary. -/
structure LegacyParseResponse where
  success : Bool
  filename : String
  sections : List ResumeSection
  metadata_processing_time : ℚ
  metadata_ats_score : Int
  raw_text : String
deriving DecidableEq, Repr

/-- `parse_resume_legacy`: reshape the analysis returned by
`/analyze-resume` into the legacy format, rebuilding each section dictionary
field by field. -/
def parseResumeLegacy (analysis : CompleteResumeAnalysis) : LegacyParseResponse :=
  { success := analysis.success
    filename := analysis.filename
    sections := analysis.sections.map (fun s =>
      ⟨s.type, s.title, s.content, s.confidence⟩)
    metadata_processing_time := analysis.processing_time
    metadata_ats_score := analysis.ats_analysis.overall_score
    raw_text := analysis.raw_text }

/-! ### Line classifier (`DocumentParser.classify_section_type` in `main_old.py`)

The pattern-based scoring uses `re.findall`; the patterns appearing in the
source need only literal characters, character classes, alternation, greedy
`?` / `*` / `+` / `{n}` / `{n,}` repetition and the word boundary `\b`, so a
small backtracking matcher with Python's leftmost/greedy match priority
suffices.  All starred subexpressions in these patterns consume at least one
character per iteration, so a fuel of `length + 1` upper-bounds the number of
repetitions. -/

/-- Python `\w` on the ASCII strings at hand. -/
def isWordChar (c : Char) : Bool := c.isAlphanum || c == '_'

/-- Word-character test across a string edge (`none` = outside the string). -/
def isWordO : Option Char → Bool
  | none => false
  | some c => isWordChar c

/-- Regular-expression fragments used by the classifier patterns. -/
inductive RE where
  | eps : RE
  | cls : (Char → Bool) → RE
  | cat : RE → RE → RE
  | alt : RE → RE → RE
  | opt : RE → RE
  | star : RE → RE
  | bnd : RE

/-- Greedy repetition: all ways a fueled iteration of `f` can consume input,
longest (most iterations) first; iterations that consume nothing stop the
repetition, as in Python.  Each result carries the last consumed character
(for `\b`) and the remaining input. -/
def starMatsAux (f : Option Char → List Char → List (Option Char × List Char)) :
    Nat → Option Char → List Char → List (Option Char × List Char)
  | 0, prev, l => [(prev, l)]
  | fuel + 1, prev, l =>
    (((f prev l).filter (fun pr => pr.2.length < l.length)).flatMap
      (fun pr => starMatsAux f fuel pr.1 pr.2)) ++ [(prev, l)]

/-- All matches of `r` at the head of `l`, in Python's backtracking priority
order (greedy quantifiers and left alternatives first); `prev` is the
character immediately before `l` in the subject. -/
def reMats : RE → Option Char → List Char → List (Option Char × List Char)
  | RE.eps, prev, l => [(prev, l)]
  | RE.cls p, _, l =>
    match l with
    | [] => []
    | c :: rest => if p c then [(some c, rest)] else []
  | RE.cat a b, prev, l => (reMats a prev l).flatMap (fun pr => reMats b pr.1 pr.2)
  | RE.alt a b, prev, l => reMats a prev l ++ reMats b prev l
  | RE.opt a, prev, l => reMats a prev l ++ [(prev, l)]
  | RE.star a, prev, l => starMatsAux (fun pc rest => reMats a pc rest) (l.length + 1) prev l
  | RE.bnd, prev, l => if isWordO prev != isWordO l.head? then [(prev, l)] else []

/-- `len(re.findall(r, ...))` scanning loop: at each position take the
preferred match and resume after it (advancing one character after an empty
match), otherwise slide one character.  Every step consumes input, so a fuel
of `length + 1` is exact. -/
def reCountGo (r : RE) : Nat → Option Char → List Char → Nat
  | 0, _, _ => 0
  | fuel + 1, prev, l =>
    match (reMats r prev l).head? with
    | none =>
      match l with
      | [] => 0
      | c :: rest => reCountGo r fuel (some c) rest
    | some pr =>
      if pr.2.length < l.length then 1 + reCountGo r fuel pr.1 pr.2
      else
        match l with
        | [] => 1
        | c :: rest => 1 + reCountGo r fuel (some c) rest

/-- `len(re.findall(r, s))`. -/
def reCount (r : RE) (s : String) : Nat := reCountGo r (s.length + 1) none s.data

/-- Concatenation of a list of fragments. -/
def reSeq (rs : List RE) : RE := rs.foldr RE.cat RE.eps

/-- A literal string. -/
def reLit (w : String) : RE := reSeq (w.data.map (fun c => RE.cls (fun d => d == c)))

/-- Alternation of literal strings, in source order. -/
def reAlts : List String → RE
  | [] => RE.cls (fun _ => false)
  | [w] => reLit w
  | w :: v :: ws => RE.alt (reLit w) (reAlts (v :: ws))

/-- A word-boundary-delimited alternation `\b(w1|...|wn)\b`. -/
def reWordAlt (ws : List String) : RE := RE.cat RE.bnd (RE.cat (reAlts ws) RE.bnd)

/-- Greedy `+`. -/
def rePlus (r : RE) : RE := RE.cat r (RE.star r)

/-- Exactly-`n` repetition (`{n}`). -/
def reRep (r : RE) (n : Nat) : RE := reSeq (List.replicate n r)

/-- Character class `\d`. -/
def clsDigit : RE := RE.cls Char.isDigit

/-- Character class `\s`. -/
def clsWS : RE := RE.cls Char.isWhitespace

/-- Character class `[-.\s]`. -/
def clsPhoneSep : RE := RE.cls (fun c => c == '-' || c == '.' || c.isWhitespace)

/-- A single literal character. -/
def reChr (c : Char) : RE := RE.cls (fun d => d == c)

/-- Pattern `\b\d{3}[-.\s]?\d{3}[-.\s]?\d{4}\b` (phone numbers). -/
def rePhone : RE := reSeq
  [RE.bnd, reRep clsDigit 3, RE.opt clsPhoneSep, reRep clsDigit 3,
   RE.opt clsPhoneSep, reRep clsDigit 4, RE.bnd]

/-- Pattern `\b[A-Za-z0-9._%+-]+@[A-Za-z0-9.-]+\.[A-Z|a-z]{2,}\b` (e-mail). -/
def reEmail : RE :=
  let local0 := RE.cls (fun c => c.isAlphanum || ([chr1, chr2, chr3, chr4, chr5].contains c))
  reSeq [RE.bnd, rePlus local0, reChr atChr, rePlus domCls, reChr chr1,
         reRep tldCls 2, RE.star tldCls, RE.bnd]
where
  chr1 : Char := '.'
  chr2 : Char := '_'
  chr3 : Char := '%'
  chr4 : Char := '+'
  chr5 : Char := '-'
  atChr : Char := '@'
  domCls : RE := RE.cls (fun c => c.isAlphanum || c == '.' || c == '-')
  tldCls : RE := RE.cls (fun c => c.isUpper || c == '|' || c.isLower)

/-- Pattern `\b(linkedin|github)\.com\b` (social profiles). -/
def reSocial : RE := reSeq
  [RE.bnd, RE.alt (reLit "linkedin") (reLit "github"), reChr '.', reLit "com", RE.bnd]

/-- Pattern `\b\d{5}(-\d{4})?\b` (ZIP codes). -/
def reZip : RE := reSeq
  [RE.bnd, reRep clsDigit 5, RE.opt (RE.cat (reChr '-') (reRep clsDigit 4)), RE.bnd]

/-- Pattern `\b(jan|...|dec)\s+\d{4}\b` (month-year dates). -/
def reMonthYear : RE := reSeq
  [RE.bnd, reAlts ["jan", "feb", "mar", "apr", "may", "jun", "jul", "aug",
    "sep", "oct", "nov", "dec"], rePlus clsWS, reRep clsDigit 4, RE.bnd]

/-- Pattern `\b\d{4}\s*[-–]\s*\d{4}\b` (year ranges; the class holds an ASCII
hyphen and an en dash). -/
def reYearRange : RE := reSeq
  [RE.bnd, reRep clsDigit 4, RE.star clsWS,
   RE.cls (fun c => c == '-' || c == '–'), RE.star clsWS,
   reRep clsDigit 4, RE.bnd]

/-- Pattern `\b(gpa|cgpa)\s*:?\s*\d+\.\d+\b` (GPA mentions). -/
def reGpa : RE := reSeq
  [RE.bnd, reAlts ["gpa", "cgpa"], RE.star clsWS, RE.opt (reChr ':'),
   RE.star clsWS, rePlus clsDigit, reChr '.', rePlus clsDigit, RE.bnd]

/-- The `patterns` table of `classify_section_type` (the `summary` type has
no pattern set in the source). -/
def classifierPatterns : String → List RE
  | "personal" => [rePhone, reEmail, reSocial, reZip]
  | "experience" =>
    [reMonthYear, reYearRange, reWordAlt ["present", "current"],
     reWordAlt ["developed", "created", "built", "managed", "led", "designed",
                "implemented"]]
  | "education" =>
    [reWordAlt ["bachelor", "master", "phd", "doctorate", "diploma", "certificate"],
     reWordAlt ["university", "college", "institute", "school"],
     reGpa, reYearRange]
  | "skills" =>
    [reWordAlt ["python", "javascript", "java", "react", "node", "html", "css",
                "sql", "aws", "docker"],
     reWordAlt ["programming", "development", "software", "technical"],
     reWordAlt ["proficient", "experienced", "expert", "familiar"]]
  | "projects" =>
    [reWordAlt ["project", "built", "developed", "created", "designed"],
     reWordAlt ["github", "repository", "demo", "live"],
     reWordAlt ["technologies", "stack", "framework"]]
  | _ => []

/-- The `section_keywords` table of `DocumentParser.__init__`. -/
def sectionKeywords : String → List String
  | "personal" =>
    ["contact", "personal information", "personal details", "profile",
     "address", "phone", "email", "linkedin", "github"]
  | "summary" =>
    ["summary", "objective", "profile summary", "career objective",
     "about", "professional summary", "overview", "career summary"]
  | "experience" =>
    ["experience", "work experience", "employment", "career history",
     "professional experience", "work history", "employment history",
     "professional background"]
  | "education" =>
    ["education", "academic", "qualifications", "degrees",
     "certifications", "academic background", "educational background",
     "university", "college", "school"]
  | "skills" =>
    ["skills", "technical skills", "competencies", "expertise",
     "technologies", "programming languages", "tools", "software"]
  | "projects" =>
    ["projects", "portfolio", "work samples", "achievements",
     "personal projects", "side projects", "open source"]
  | _ => []

/-- Per-keyword contribution of the keyword loop of `classify_section_type`:
3 when the keyword occurs in the first 50 characters of the lowered text,
1 when it occurs later, 0 otherwise. -/
def kwContrib (k textLower : String) : Nat :=
  if containsSub k textLower then
    if containsSub k (pyTakeChars 50 textLower) then 3 else 1
  else 0

/-- Keyword component of a type's score in `classify_section_type`. -/
def keywordComponent (t text : String) : Nat :=
  ((sectionKeywords t).map (fun k => kwContrib k (pyLower text))).sum

/-- Pattern component of a type's score in `classify_section_type`:
`matches * 2` summed over the type's pattern set. -/
def patternComponent (t text : String) : Nat :=
  ((classifierPatterns t).map (fun r => 2 * reCount r (pyLower text))).sum

/-- The per-type score computed by `classify_section_type`. -/
def sectionTypeScore (t text : String) : Nat :=
  keywordComponent t text + patternComponent t text

/-! ### Helper lemmas -/

theorem startsWithChars_append {n h : List Char} (e : List Char)
    (hs : startsWithChars n h = true) : startsWithChars n (h ++ e) = true := by
  induction n generalizing h with
  | nil => simp [startsWithChars]
  | cons a as ih =>
    cases h with
    | nil => simp [startsWithChars] at hs
    | cons b bs =>
      simp only [startsWithChars, Bool.and_eq_true] at hs ⊢
      exact ⟨hs.1, ih hs.2⟩

theorem containsChars_append {n h : List Char} (e : List Char)
    (hc : containsChars n h = true) : containsChars n (h ++ e) = true := by
  induction h with
  | nil =>
    simp only [containsChars] at hc
    cases n with
    | nil =>
      cases e with
      | nil => simpa [containsChars] using hc
      | cons c cs => simp [containsChars, startsWithChars]
    | cons a as => simp [startsWithChars] at hc
  | cons c cs ih =>
    simp only [containsChars, Bool.or_eq_true] at hc
    rcases hc with hc | hc
    · simp only [List.cons_append, containsChars, Bool.or_eq_true]
      exact Or.inl (startsWithChars_append e hc)
    · simp only [List.cons_append, containsChars, Bool.or_eq_true]
      exact Or.inr (ih hc)

theorem containsSub_append {n a : String} (b : String)
    (hc : containsSub n a = true) : containsSub n (a ++ b) = true := by
  have hd : (a ++ b).data = a.data ++ b.data := String.data_append a b
  unfold containsSub at hc ⊢
  rw [hd]
  exact containsChars_append _ hc

theorem pyLower_append (a b : String) : pyLower (a ++ b) = pyLower a ++ pyLower b := by
  unfold pyLower
  have hd : (a ++ b).data = a.data ++ b.data := String.data_append a b
  have he : ∀ x y : String, x ++ y = ⟨x.data ++ y.data⟩ := by
    intro x y; cases x; cases y; rfl
  rw [hd, List.map_append, he]

theorem containsSub_take_append {n a : String} (k : Nat) (b : String)
    (hc : containsSub n (pyTakeChars k a) = true) :
    containsSub n (pyTakeChars k (a ++ b)) = true := by
  have hd : (a ++ b).data = a.data ++ b.data := String.data_append a b
  unfold containsSub pyTakeChars at hc ⊢
  rw [hd, List.take_append_eq_append_take]
  exact containsChars_append _ hc

theorem kwContrib_mono (k a b : String) : kwContrib k a ≤ kwContrib k (a ++ b) := by
  unfold kwContrib
  by_cases h1 : containsSub k a = true
  · rw [if_pos h1, if_pos (containsSub_append b h1)]
    by_cases h2 : containsSub k (pyTakeChars 50 a) = true
    · rw [if_pos h2, if_pos (containsSub_take_append 50 b h2)]
    · rw [if_neg h2]
      by_cases h3 : containsSub k (pyTakeChars 50 (a ++ b)) = true
      · rw [if_pos h3]; omega
      · rw [if_neg h3]
  · rw [if_neg h1]
    by_cases h4 : containsSub k (a ++ b) = true
    · rw [if_pos h4]
      by_cases h5 : containsSub k (pyTakeChars 50 (a ++ b)) = true
      · rw [if_pos h5]; omega
      · rw [if_neg h5]; omega
    · rw [if_neg h4]

theorem keywordComponent_mono (t line suffix : String) :
    keywordComponent t line ≤ keywordComponent t (line ++ suffix) := by
  unfold keywordComponent
  rw [pyLower_append]
  exact List.sum_le_sum (fun k _ => kwContrib_mono k (pyLower line) (pyLower suffix))

/-! ### Disjointness invariant of the segmenter -/

/-- Invariant threaded through the extraction passes: every claimed index of
an already-produced section is in the accumulated `used_lines`, and the
sections' claimed-index lists are pairwise disjoint. -/
def TagInv (secs : List (ResumeSection × List Nat)) (used : List Nat) : Prop :=
  (∀ p ∈ secs, ∀ i ∈ p.2, i ∈ used) ∧
  List.Pairwise (fun a b => ∀ i ∈ a.2, i ∉ b.2) secs

theorem tagInv_nil : TagInv [] [] := by
  constructor
  · intro p hp; simp at hp
  · exact List.Pairwise.nil

theorem tagInv_stepAppend {secs : List (ResumeSection × List Nat)} {used : List Nat}
    (c : Prop) [Decidable c] (sec : ResumeSection) {idx : List Nat}
    (h : TagInv secs used) (hidx : ∀ i ∈ idx, i ∉ used) :
    TagInv (stepAppend secs used c sec idx).1 (stepAppend secs used c sec idx).2 := by
  unfold stepAppend
  by_cases hc : c
  · rw [if_pos hc]
    constructor
    · intro p hp i hi
      simp only [List.mem_append, List.mem_singleton] at hp
      rcases hp with hp | hp
      · exact List.mem_append_left idx (h.1 p hp i hi)
      · subst hp
        exact List.mem_append_right used hi
    · rw [List.pairwise_append]
      refine ⟨h.2, List.pairwise_singleton _ _, ?_⟩
      intro a ha b hb i hia
      simp only [List.mem_singleton] at hb
      subst hb
      intro hib
      exact hidx i hib (h.1 a ha i hia)
  · rw [if_neg hc]; exact h

theorem pairwise_append_final {secs : List (ResumeSection × List Nat)} {used : List Nat}
    (c : Prop) [Decidable c] (sec : ResumeSection) {idx : List Nat}
    (h : TagInv secs used) (hidx : ∀ i ∈ idx, i ∉ used) :
    List.Pairwise (fun a b => ∀ i ∈ a.2, i ∉ b.2)
      (secs ++ if c then [(sec, idx)] else []) := by
  by_cases hc : c
  · rw [if_pos hc, List.pairwise_append]
    refine ⟨h.2, List.pairwise_singleton _ _, ?_⟩
    intro a ha b hb i hia
    simp only [List.mem_singleton] at hb
    subst hb
    intro hib
    exact hidx i hib (h.1 a ha i hia)
  · rw [if_neg hc, List.append_nil]; exact h.2

/-! Claimed indices of each extractor are fresh with respect to `used`. -/

theorem extractModalGo_not_mem (used : List Nat) (sks nin eks : List String)
    (m : Bool) (i : Nat) (ls : List String) :
    ∀ j ∈ (extractModalGo used sks nin eks m i ls).2, j ∉ used := by
  induction ls generalizing m i with
  | nil => intro j hj; simp [extractModalGo] at hj
  | cons l ls ih =>
    intro j hj
    simp only [extractModalGo] at hj
    by_cases h1 : i ∈ used
    · rw [if_pos h1] at hj
      exact ih _ _ j hj
    · rw [if_neg h1] at hj
      by_cases h2 : (sks.any (fun k => containsSub k (pyStrip (pyLower l))) = true)
      · rw [if_pos h2] at hj
        by_cases h3 : (nin.contains (pyStrip (pyLower l)) = true)
        · rw [if_pos h3] at hj
          exact ih _ _ j hj
        · rw [if_neg h3] at hj
          simp only [List.mem_cons] at hj
          rcases hj with rfl | hj
          · exact h1
          · exact ih _ _ j hj
      · rw [if_neg h2] at hj
        by_cases h4 : ((m && eks.any (fun k => containsSub k (pyStrip (pyLower l)))) = true)
        · rw [if_pos h4] at hj
          simp at hj
        · rw [if_neg h4] at hj
          by_cases h5 : ((m && !(pyStrip l == "")) = true)
          · rw [if_pos h5] at hj
            simp only [List.mem_cons] at hj
            rcases hj with rfl | hj
            · exact h1
            · exact ih _ _ j hj
          · rw [if_neg h5] at hj
            exact ih _ _ j hj

theorem extractExperienceGo_not_mem (used : List Nat) (i : Nat) (ls : List String) :
    ∀ j ∈ (extractExperienceGo used i ls).2, j ∉ used := by
  induction ls generalizing i with
  | nil => intro j hj; simp [extractExperienceGo] at hj
  | cons l ls ih =>
    intro j hj
    simp only [extractExperienceGo] at hj
    by_cases h1 : i ∈ used
    · rw [if_pos h1] at hj
      exact ih _ j hj
    · rw [if_neg h1] at hj
      by_cases h2 : (isWorkContent l (pyStrip (pyLower l)) = true)
      · rw [if_pos h2] at hj
        simp only [List.mem_cons] at hj
        rcases hj with rfl | hj
        · exact h1
        · exact ih _ j hj
      · rw [if_neg h2] at hj
        exact ih _ j hj

theorem extractRemainingGo_not_mem (used : List Nat) (cond : String → Bool)
    (i : Nat) (ls : List String) :
    ∀ j ∈ (extractRemainingGo used cond i ls).2, j ∉ used := by
  induction ls generalizing i with
  | nil => intro j hj; simp [extractRemainingGo] at hj
  | cons l ls ih =>
    intro j hj
    simp only [extractRemainingGo] at hj
    by_cases h1 : ((decide (i ∈ used) || (pyStrip l == "")) = true)
    · rw [if_pos h1] at hj
      exact ih _ j hj
    · rw [if_neg h1] at hj
      have h1' : i ∉ used := by
        simp only [Bool.or_eq_true, decide_eq_true_eq] at h1
        push_neg at h1
        exact h1.1
      by_cases h2 : (cond (pyStrip (pyLower l)) = true)
      · rw [if_pos h2] at hj
        simp only [List.mem_cons] at hj
        rcases hj with rfl | hj
        · exact h1'
        · exact ih _ j hj
      · rw [if_neg h2] at hj
        exact ih _ j hj

theorem extractAdditionalGo_not_mem (used : List Nat) (i : Nat) (ls : List String) :
    ∀ j ∈ (extractAdditionalGo used i ls).2, j ∉ used := by
  induction ls generalizing i with
  | nil => intro j hj; simp [extractAdditionalGo] at hj
  | cons l ls ih =>
    intro j hj
    simp only [extractAdditionalGo] at hj
    by_cases h1 : ((decide (i ∈ used) || (pyStrip l == "")) = true)
    · rw [if_pos h1] at hj
      exact ih _ j hj
    · rw [if_neg h1] at hj
      have h1' : i ∉ used := by
        simp only [Bool.or_eq_true, decide_eq_true_eq] at h1
        push_neg at h1
        exact h1.1
      by_cases h2 : (additionalHeaderEchoes.contains (pyStrip (pyLower l)) = true)
      · rw [if_pos h2] at hj
        exact ih _ j hj
      · rw [if_neg h2] at hj
        by_cases h3 : (additionalLineCond l (pyStrip (pyLower l)) = true)
        · rw [if_pos h3] at hj
          simp only [List.mem_cons] at hj
          rcases hj with rfl | hj
          · exact h1'
          · exact ih _ j hj
        · rw [if_neg h3] at hj
          exact ih _ j hj

theorem extractSummary_not_mem (lines : List String) (used : List Nat) :
    ∀ j ∈ (extractSummaryWithTracking lines used).2, j ∉ used :=
  extractModalGo_not_mem used _ _ _ false 0 lines

theorem extractExperience_not_mem (lines : List String) (used : List Nat) :
    ∀ j ∈ (extractAllExperience lines used).2, j ∉ used :=
  extractExperienceGo_not_mem used 0 lines

theorem extractEducation_not_mem (lines : List String) (used : List Nat) :
    ∀ j ∈ (extractEducationWithTracking lines used).2, j ∉ used :=
  extractModalGo_not_mem used _ _ _ false 0 lines

theorem extractSkills_not_mem (lines : List String) (used : List Nat) :
    ∀ j ∈ (extractSkillsWithTracking lines used).2, j ∉ used :=
  extractModalGo_not_mem used _ _ _ false 0 lines

theorem extractProjects_not_mem (lines : List String) (used : List Nat) :
    ∀ j ∈ (extractProjectsWithTracking lines used).2, j ∉ used :=
  extractModalGo_not_mem used _ _ _ false 0 lines

theorem extractEducationRemaining_not_mem (lines : List String) (used : List Nat) :
    ∀ j ∈ (extractEducationFromRemaining lines used).2, j ∉ used :=
  extractRemainingGo_not_mem used _ 0 lines

theorem extractSkillsRemaining_not_mem (lines : List String) (used : List Nat) :
    ∀ j ∈ (extractSkillsFromRemaining lines used).2, j ∉ used :=
  extractRemainingGo_not_mem used _ 0 lines

theorem extractAdditional_not_mem (lines : List String) (used : List Nat) :
    ∀ j ∈ (extractCleanAdditionalInfoIdx lines used).2, j ∉ used :=
  extractAdditionalGo_not_mem used 0 lines

theorem structuredPasses_pairwise (lines : List String) :
    List.Pairwise (fun a b => ∀ i ∈ a.2, i ∉ b.2) (structuredPasses lines).1 := by
  refine pairwise_append_final _ _ ?_ (extractAdditional_not_mem lines _)
  refine tagInv_stepAppend _ _ ?_ (extractSkillsRemaining_not_mem lines _)
  refine tagInv_stepAppend _ _ ?_ (extractEducationRemaining_not_mem lines _)
  refine tagInv_stepAppend _ _ ?_ (extractProjects_not_mem lines _)
  refine tagInv_stepAppend _ _ ?_ (extractSkills_not_mem lines _)
  refine tagInv_stepAppend _ _ ?_ (extractEducation_not_mem lines _)
  refine tagInv_stepAppend _ _ ?_ (extractExperience_not_mem lines _)
  refine tagInv_stepAppend _ _ ?_ (extractSummary_not_mem lines _)
  refine tagInv_stepAppend _ _ tagInv_nil ?_
  intro i _ h
  simp at h

theorem range'_disjoint (a n b m : Nat) (h : a + n ≤ b) :
    ∀ i ∈ List.range' a n, i ∉ List.range' b m := by
  intro i hi hj
  rw [List.mem_range'_1] at hi hj
  omega

theorem pairwise_pair {x y : ResumeSection × List Nat}
    (hxy : ∀ i ∈ x.2, i ∉ y.2) :
    List.Pairwise (fun a b => ∀ i ∈ a.2, i ∉ b.2) [x, y] := by
  refine List.Pairwise.cons ?_ (List.pairwise_singleton _ _)
  intro b hb
  simp only [List.mem_singleton] at hb
  subst hb
  exact hxy

theorem pairwise_triple {x y z : ResumeSection × List Nat}
    (hxy : ∀ i ∈ x.2, i ∉ y.2) (hxz : ∀ i ∈ x.2, i ∉ z.2)
    (hyz : ∀ i ∈ y.2, i ∉ z.2) :
    List.Pairwise (fun a b => ∀ i ∈ a.2, i ∉ b.2) [x, y, z] := by
  refine List.Pairwise.cons ?_ (pairwise_pair hyz)
  intro b hb
  simp only [List.mem_cons, List.mem_singleton] at hb
  rcases hb with rfl | rfl | h
  · exact hxy
  · exact hxz
  · simp at h

theorem basicSectionsTagged_pairwise (lines : List String) :
    List.Pairwise (fun a b => ∀ i ∈ a.2, i ∉ b.2) (basicSectionsTagged lines) := by
  simp only [basicSectionsTagged]
  split_ifs with h1 h2 h3 h3'
  · simp only [List.cons_append, List.nil_append]
    exact pairwise_triple
      (range'_disjoint _ _ _ _ (by omega))
      (range'_disjoint _ _ _ _ (by omega))
      (range'_disjoint _ _ _ _ (by omega))
  · simp only [List.cons_append, List.nil_append, List.append_nil]
    exact pairwise_pair (range'_disjoint _ _ _ _ (by omega))
  · simp only [List.nil_append, List.cons_append]
    exact pairwise_pair (range'_disjoint _ _ _ _ (by omega))
  · simp only [List.nil_append, List.append_nil]
    exact List.pairwise_singleton _ _
  all_goals exfalso; omega

/-- C1: across all sections the segmenter produces for one document —
including the salvage passes, the additional-information pass and the
position-based fallback — the claimed line-index lists are pairwise
disjoint. -/
theorem c1_sections_disjoint (lines : List String) :
    List.Pairwise (fun a b => ∀ i ∈ a.2, i ∉ b.2)
      (createStructuredResumeTagged lines) := by
  unfold createStructuredResumeTagged
  by_cases h : (structuredPasses lines).1 = []
  · rw [if_pos h]
    exact basicSectionsTagged_pairwise lines
  · rw [if_neg h]
    exact structuredPasses_pairwise lines

/-- Witness for C1 at a concrete document. -/
theorem c1_sections_disjoint_witness :
    List.Pairwise (fun a b => ∀ i ∈ a.2, i ∉ b.2)
      (createStructuredResumeTagged ["John Doe", "john@example.com"]) :=
  c1_sections_disjoint ["John Doe", "john@example.com"]

/-! ### Totality and non-empty content (C4, C6) -/

theorem length_pos_of_ne (s : String) (h : s ≠ "") : 0 < s.length := by
  cases s with
  | mk data =>
    cases data with
    | nil => exact absurd rfl h
    | cons c cs => simp [String.length]

theorem joinWith_ne_empty (sep : String) (parts : List String)
    (hne : parts ≠ []) (h : ∀ x ∈ parts, x ≠ "") : joinWith sep parts ≠ "" := by
  match parts with
  | [] => exact absurd rfl hne
  | [a] =>
    simpa [joinWith] using h a (by simp)
  | a :: b :: rest =>
    simp only [joinWith]
    intro hcontra
    have ha : a ≠ "" := h a (by simp)
    have hpos : 0 < a.length := length_pos_of_ne a ha
    have hlen : (a ++ sep ++ joinWith sep (b :: rest)).length =
        a.length + sep.length + (joinWith sep (b :: rest)).length := by
      rw [String.length_append, String.length_append]
    rw [hcontra] at hlen
    have hz : ("" : String).length = 0 := rfl
    rw [hz] at hlen
    omega

theorem content_append_if {secs : List (ResumeSection × List Nat)}
    (c : Prop) [Decidable c] (sec : ResumeSection) (idx : List Nat)
    (h : ∀ p ∈ secs, p.1.content ≠ "") (hc : c → sec.content ≠ "") :
    ∀ p ∈ secs ++ (if c then [(sec, idx)] else []), p.1.content ≠ "" := by
  intro p hp
  by_cases hcc : c
  · rw [if_pos hcc] at hp
    rcases List.mem_append.mp hp with hp | hp
    · exact h p hp
    · simp only [List.mem_singleton] at hp
      subst hp
      exact hc hcc
  · rw [if_neg hcc, List.append_nil] at hp
    exact h p hp

theorem content_stepAppend {secs : List (ResumeSection × List Nat)} {used : List Nat}
    (c : Prop) [Decidable c] (sec : ResumeSection) (idx : List Nat)
    (h : ∀ p ∈ secs, p.1.content ≠ "") (hc : c → sec.content ≠ "") :
    ∀ p ∈ (stepAppend secs used c sec idx).1, p.1.content ≠ "" := by
  unfold stepAppend
  by_cases hcc : c
  · rw [if_pos hcc]
    show ∀ p ∈ secs ++ [(sec, idx)], p.1.content ≠ ""
    intro p hp
    rcases List.mem_append.mp hp with hp | hp
    · exact h p hp
    · simp only [List.mem_singleton] at hp
      subst hp
      exact hc hcc
  · rw [if_neg hcc]
    exact h

theorem structuredPasses_content (lines : List String) :
    ∀ p ∈ (structuredPasses lines).1, p.1.content ≠ "" := by
  refine content_append_if _ _ _ ?_ (fun h => h)
  refine content_stepAppend _ _ _ ?_ (fun h => h.2)
  refine content_stepAppend _ _ _ ?_ (fun h => h.2)
  refine content_stepAppend _ _ _ ?_ (fun h => h)
  refine content_stepAppend _ _ _ ?_ (fun h => h)
  refine content_stepAppend _ _ _ ?_ (fun h => h)
  refine content_stepAppend _ _ _ ?_ (fun h => h)
  refine content_stepAppend _ _ _ ?_ (fun h => h)
  refine content_stepAppend _ _ _ ?_ (fun h => h)
  intro p hp
  simp at hp

theorem basicSectionsTagged_content (lines : List String)
    (hne : lines ≠ []) (hl : ∀ l ∈ lines, l ≠ "") :
    ∀ p ∈ basicSectionsTagged lines, p.1.content ≠ "" := by
  simp only [basicSectionsTagged]
  intro p hp
  simp only [List.mem_append] at hp
  rcases hp with (hp | hp) | hp
  · by_cases h1 : 0 < min (max 5 (lines.length / 5)) 10
    · rw [if_pos h1] at hp
      simp only [List.mem_singleton] at hp
      subst hp
      refine joinWith_ne_empty _ _ ?_ (fun x hx => hl x (List.mem_of_mem_take hx))
      rw [ne_eq, List.take_eq_nil_iff]
      push_neg
      exact ⟨by omega, hne⟩
    · rw [if_neg h1] at hp
      simp at hp
  · by_cases h2 : min (max 5 (lines.length / 5)) 10 <
      min lines.length (min (max 5 (lines.length / 5)) 10 + 3 * lines.length / 5)
    · rw [if_pos h2] at hp
      simp only [List.mem_singleton] at hp
      subst hp
      refine joinWith_ne_empty _ _ ?_
        (fun x hx => hl x (List.mem_of_mem_drop (List.mem_of_mem_take hx)))
      rw [ne_eq, List.take_eq_nil_iff]
      push_neg
      refine ⟨by omega, ?_⟩
      rw [ne_eq, List.drop_eq_nil_iff]
      omega
    · rw [if_neg h2] at hp
      simp at hp
  · by_cases h3 : min lines.length (min (max 5 (lines.length / 5)) 10 + 3 * lines.length / 5) <
      lines.length
    · rw [if_pos h3] at hp
      simp only [List.mem_singleton] at hp
      subst hp
      refine joinWith_ne_empty _ _ ?_ (fun x hx => hl x (List.mem_of_mem_drop hx))
      rw [ne_eq, List.drop_eq_nil_iff]
      omega
    · rw [if_neg h3] at hp
      simp at hp

theorem createStructuredResumeTagged_content (lines : List String)
    (hne : lines ≠ []) (hl : ∀ l ∈ lines, l ≠ "") :
    ∀ p ∈ createStructuredResumeTagged lines, p.1.content ≠ "" := by
  unfold createStructuredResumeTagged
  by_cases h : (structuredPasses lines).1 = []
  · rw [if_pos h]
    exact basicSectionsTagged_content lines hne hl
  · rw [if_neg h]
    exact structuredPasses_content lines

theorem preprocessLines_ne_empty (text : String) :
    ∀ l ∈ preprocessLines text, l ≠ "" := by
  intro l hl
  unfold preprocessLines at hl
  have := (List.mem_filter.mp hl).2
  simpa using this

/-- C4 (amended): for every input text whose line preprocessing yields at
least one non-blank line, segmentation returns at least one section and
every returned section has non-empty content; the embedding is total, so the
segmenter never raises. -/
theorem c4_totality_nonblank (text : String) (h : preprocessLines text ≠ []) :
    parseResumeText text ≠ [] ∧ ∀ s ∈ parseResumeText text, s.content ≠ "" := by
  have hl := preprocessLines_ne_empty text
  unfold parseResumeText
  rw [if_neg h]
  constructor
  · unfold createStructuredResume
    rw [ne_eq, List.map_eq_nil_iff]
    unfold createStructuredResumeTagged
    by_cases hsp : (structuredPasses (preprocessLines text)).1 = []
    · rw [if_pos hsp]
      simp only [basicSectionsTagged]
      have hpe : 0 < min (max 5 ((preprocessLines text).length / 5)) 10 := by omega
      rw [if_pos hpe]
      simp
    · rw [if_neg hsp]
      exact hsp
  · intro s hs
    unfold createStructuredResume at hs
    rcases List.mem_map.mp hs with ⟨p, hp, rfl⟩
    exact createStructuredResumeTagged_content _ h hl p hp

/-- Witness for C4 on a concrete non-blank input. -/
theorem c4_totality_nonblank_witness :
    preprocessLines "hello" ≠ [] ∧
    (parseResumeText "hello" ≠ [] ∧ ∀ s ∈ parseResumeText "hello", s.content ≠ "") :=
  ⟨by decide, c4_totality_nonblank "hello" (by decide)⟩

/-- Counterexample for C4 as stated: the whitespace-only text `" "` is a
non-empty input string, yet segmentation returns zero sections. -/
theorem c4_counterexample_blank_input :
    (" " : String) ≠ "" ∧ parseResumeText " " = [] := by
  constructor
  · decide
  · decide

theorem basicSectionsTagged_shape (lines : List String) :
    1 ≤ (basicSectionsTagged lines).length ∧ (basicSectionsTagged lines).length ≤ 3 ∧
    ∀ p ∈ basicSectionsTagged lines,
      p.1.type = "personal" ∨ p.1.type = "experience" ∨ p.1.type = "skills" := by
  simp only [basicSectionsTagged]
  have hpe : 0 < min (max 5 (lines.length / 5)) 10 := by omega
  rw [if_pos hpe]
  split_ifs with h2 h3 h3' <;>
    refine ⟨by simp, by simp, ?_⟩ <;>
    intro p hp <;>
    simp only [List.cons_append, List.nil_append, List.append_nil,
      List.mem_cons, List.mem_singleton, List.not_mem_nil, or_false,
      false_or] at hp
  · rcases hp with rfl | rfl | rfl
    · exact Or.inl rfl
    · exact Or.inr (Or.inl rfl)
    · exact Or.inr (Or.inr rfl)
  · rcases hp with rfl | rfl
    · exact Or.inl rfl
    · exact Or.inr (Or.inl rfl)
  · rcases hp with rfl | rfl
    · exact Or.inl rfl
    · exact Or.inr (Or.inr rfl)
  · rcases hp with rfl
    exact Or.inl rfl

/-- C6 (amended): on a non-blank input on which the nine extraction passes
produce zero sections, the segmenter falls through to the position-based
split and returns between 1 and 3 sections, all typed `personal`,
`experience` or `skills` (a single `personal` section when the document has
at most five lines). -/
theorem c6_positional_fallback (text : String) (h : preprocessLines text ≠ [])
    (h0 : (structuredPasses (preprocessLines text)).1 = []) :
    (1 ≤ (parseResumeText text).length ∧ (parseResumeText text).length ≤ 3) ∧
    ∀ s ∈ parseResumeText text,
      s.type = "personal" ∨ s.type = "experience" ∨ s.type = "skills" := by
  unfold parseResumeText
  rw [if_neg h]
  unfold createStructuredResume createStructuredResumeTagged
  rw [if_pos h0]
  obtain ⟨ha, hb, hc⟩ := basicSectionsTagged_shape (preprocessLines text)
  refine ⟨⟨by simpa using ha, by simpa using hb⟩, ?_⟩
  intro s hs
  rcases List.mem_map.mp hs with ⟨p, hp, rfl⟩
  exact hc p hp

/-- Witness for C6 on a concrete keyword-free input. -/
theorem c6_positional_fallback_witness :
    preprocessLines "zzz" ≠ [] ∧ (structuredPasses (preprocessLines "zzz")).1 = [] ∧
    ((1 ≤ (parseResumeText "zzz").length ∧ (parseResumeText "zzz").length ≤ 3) ∧
     ∀ s ∈ parseResumeText "zzz",
       s.type = "personal" ∨ s.type = "experience" ∨ s.type = "skills") :=
  ⟨by decide, by decide, c6_positional_fallback "zzz" (by decide) (by decide)⟩

/-- Counterexample for C6 as stated: `"zzz"` is a non-empty input on which no
extraction pass claims any line, yet the fallback returns exactly one
section, not 2 or 3. -/
theorem c6_counterexample_single_section :
    (structuredPasses (preprocessLines "zzz")).1 = [] ∧
    (parseResumeText "zzz").length = 1 ∧
    ¬((parseResumeText "zzz").length = 2 ∨ (parseResumeText "zzz").length = 3) := by
  refine ⟨by decide, by decide, ?_⟩
  decide

/-! ### Scenario A (C3) -/

/-- The Scenario A input text from the specification. -/
def scenarioAText : String :=
  "John Doe\njohn@example.com\n555-123-4567\n\nEXPERIENCE\nSoftware Engineer at Acme Corp 2020-Present\nBuilt scalable systems.\n\nEDUCATION\nBachelor of Science, State University, 2019\n\nSKILLS\nPython, SQL, Docker"

/-- Counterexample for C3 as stated: on the Scenario A input the
`Software Engineer at Acme Corp 2020-Present` line is claimed by the
personal pass (any digit in a line longer than 8 characters), not by the
experience section, and `education_credentials` scores 0, not at least 20. -/
theorem c3_counterexample_misrouted_lines :
    ((parseResumeText scenarioAText).any (fun s =>
      s.type == "experience" && containsSub "Acme" s.content)) = false ∧
    ((parseResumeText scenarioAText).any (fun s =>
      s.type == "personal" && containsSub "Acme" s.content)) = true ∧
    dictGetD (enhancedFallbackAnalysis (parseResumeText scenarioAText)).category_scores
      "education_credentials" 0 = 0 := by
  refine ⟨by decide, by decide, by decide⟩

/-- C3 (amended): on the Scenario A input, the personal section holds the
name, e-mail and phone lines and also the Acme experience line and the
degree line (both contain digits and are longer than 8 characters); the
experience section holds the `EXPERIENCE` header and the `Built scalable
systems.` line; the skills section lists the three tokens; education is
found only by the salvage pass and holds just the `EDUCATION` header; the
rule-based scorer then yields `contact_info` = 16 (≥ 16 as claimed) but
`education_credentials` = 0, with overall 45. -/
theorem c3_scenarioA_actual :
    parseResumeText scenarioAText =
      [⟨"personal", "Personal Information",
        "John Doe\njohn@example.com\n555-123-4567\nSoftware Engineer at Acme Corp 2020-Present\nBachelor of Science, State University, 2019", 9/10⟩,
       ⟨"experience", "Work Experience", "EXPERIENCE\nBuilt scalable systems.", 9/10⟩,
       ⟨"skills", "Technical Skills", "Python, SQL, Docker", 9/10⟩,
       ⟨"education", "Education", "EDUCATION", 8/10⟩] ∧
    (enhancedFallbackAnalysis (parseResumeText scenarioAText)).category_scores =
      [("format_structure", 18), ("keywords_skills", 3),
       ("experience_relevance", 8), ("contact_info", 16),
       ("education_credentials", 0)] ∧
    (enhancedFallbackAnalysis (parseResumeText scenarioAText)).overall_score = 45 := by
  refine ⟨rfl, by decide, by decide⟩

/-! ### Rule-based score invariant (C5) -/

theorem catFormatStructure_bounds (sections : List ResumeSection) :
    0 ≤ catFormatStructure sections ∧ catFormatStructure sections ≤ 25 := by
  unfold catFormatStructure
  split_ifs <;> constructor <;> norm_num

theorem catKeywordsSkills_bounds (sections : List ResumeSection) (allText : String) :
    0 ≤ catKeywordsSkills sections allText ∧ catKeywordsSkills sections allText ≤ 25 := by
  unfold catKeywordsSkills
  have h1 : (0:ℤ) ≤ min 10 (((techKeywords ++ businessKeywords).filter
      (fun k => containsSub k allText)).length : ℤ) :=
    le_min (by norm_num) (Int.natCast_nonneg _)
  have h2 : min 10 (((techKeywords ++ businessKeywords).filter
      (fun k => containsSub k allText)).length : ℤ) ≤ 10 :=
    min_le_left _ _
  split
  · split_ifs <;> constructor <;> omega
  · constructor <;> omega

theorem catExperienceRelevance_bounds (sections : List ResumeSection) :
    0 ≤ catExperienceRelevance sections ∧ catExperienceRelevance sections ≤ 25 := by
  unfold catExperienceRelevance
  split
  · split_ifs <;> constructor <;> norm_num
  · constructor <;> norm_num

theorem catContactInfo_bounds (sections : List ResumeSection) :
    0 ≤ catContactInfo sections ∧ catContactInfo sections ≤ 25 := by
  unfold catContactInfo
  split
  · split_ifs <;> constructor <;> norm_num
  · constructor <;> norm_num

theorem catEducationCredentials_bounds (sections : List ResumeSection) :
    0 ≤ catEducationCredentials sections ∧ catEducationCredentials sections ≤ 25 := by
  unfold catEducationCredentials
  split
  · split_ifs <;> constructor <;> norm_num
  · constructor <;> norm_num

/-- C5: in the rule-based scorer, `overall_score` equals the sum of the five
category scores clamped to at most 100, and every category score lies in
[0, 25]. -/
theorem c5_rule_based_score_invariant (sections : List ResumeSection) :
    (enhancedFallbackAnalysis sections).overall_score =
      min 100 (((enhancedFallbackAnalysis sections).category_scores.map
        (fun q => q.2)).sum) ∧
    ∀ q ∈ (enhancedFallbackAnalysis sections).category_scores,
      0 ≤ q.2 ∧ q.2 ≤ 25 := by
  constructor
  · simp only [enhancedFallbackAnalysis, List.map_cons, List.map_nil,
      List.sum_cons, List.sum_nil]
    congr 1
    ring
  · intro q hq
    simp only [enhancedFallbackAnalysis, List.mem_cons, List.not_mem_nil,
      or_false] at hq
    rcases hq with rfl | rfl | rfl | rfl | rfl
    · exact catFormatStructure_bounds sections
    · exact catKeywordsSkills_bounds sections _
    · exact catExperienceRelevance_bounds sections
    · exact catContactInfo_bounds sections
    · exact catEducationCredentials_bounds sections

/-- Witness for C5 at the empty section list. -/
theorem c5_rule_based_score_invariant_witness :
    (enhancedFallbackAnalysis []).overall_score =
      min 100 (((enhancedFallbackAnalysis []).category_scores.map
        (fun q => q.2)).sum) ∧
    (0 ≤ ("format_structure", (0:ℤ)).2 ∧ ("format_structure", (0:ℤ)).2 ≤ 25) :=
  ⟨(c5_rule_based_score_invariant []).1,
   (c5_rule_based_score_invariant []).2 ("format_structure", 0) (by decide)⟩

/-! ### Classifier monotonicity (C7) -/

/-- Counterexample for C7 as stated: appending the `skills` keyword
`"skills"` to the line `"skills python"` destroys the word-boundary match of
`\b(python|...)\b` (losing 2 pattern points) while the keyword `"skills"`
was already present (gaining nothing), so the total skills score strictly
decreases. -/
theorem c7_counterexample_score_decreases :
    "skills" ∈ sectionKeywords "skills" ∧
    sectionTypeScore "skills" ("skills python" ++ "skills") <
      sectionTypeScore "skills" "skills python" := by
  refine ⟨by decide, by decide⟩

/-- C7 (amended): appending an additional keyword of type T to a line never
decreases the keyword-matching component of T's classifier score (the
regex-pattern component, and hence the total, can decrease). -/
theorem c7_keyword_component_monotone (t line kw : String)
    (_hkw : kw ∈ sectionKeywords t) :
    keywordComponent t line ≤ keywordComponent t (line ++ kw) :=
  keywordComponent_mono t line kw

/-- Witness for C7 at a concrete line and keyword. -/
theorem c7_keyword_component_monotone_witness :
    "skills" ∈ sectionKeywords "skills" ∧
    keywordComponent "skills" "x" ≤ keywordComponent "skills" ("x" ++ "skills") :=
  ⟨by decide, c7_keyword_component_monotone "skills" "x" "skills" (by decide)⟩

/-! ### Model-reply clamping (C2) -/

/-- Counterexample for C2 as stated: a successfully parsed model reply with
`overall_score` 150 passes through `score_ats_with_ollama` unclamped. -/
theorem c2_counterexample_ollama_unclamped :
    (buildATSFromOllamaParsed ⟨some 150, none, none, none⟩).overall_score = 150 ∧
    ¬((buildATSFromOllamaParsed ⟨some 150, none, none, none⟩).overall_score ≤ 100) := by
  refine ⟨rfl, by decide⟩

/-- C2 (amended): in the `AIATSScorer.analyze_resume` path every parsed
numeric field is clamped — `overall_score` into [0, 100] and each category
into [0, 25] — and a reply whose JSON holds `overall_score` 150 yields 100;
the `OllamaResumeAnalyzer.score_ats_with_ollama` path copies the parsed
`overall_score` through without clamping. -/
theorem c2_ai_path_clamped (p : ParsedATS) :
    (0 ≤ (buildATSFromAIParsed p).overall_score ∧
      (buildATSFromAIParsed p).overall_score ≤ 100) ∧
    (∀ q ∈ (buildATSFromAIParsed p).category_scores, 0 ≤ q.2 ∧ q.2 ≤ 25) ∧
    (p.overall_score = some 150 → (buildATSFromAIParsed p).overall_score = 100) := by
  refine ⟨⟨le_max_left 0 _, max_le (by norm_num) (min_le_left _ _)⟩, ?_, ?_⟩
  · intro q hq
    simp only [buildATSFromAIParsed, List.mem_cons, List.not_mem_nil,
      or_false] at hq
    rcases hq with rfl | rfl | rfl | rfl | rfl <;>
      exact ⟨le_max_left 0 _, max_le (by norm_num) (min_le_left _ _)⟩
  · intro h
    simp only [buildATSFromAIParsed, h, Option.getD_some]
    decide

/-- Witness for C2 at the parsed reply with `overall_score` 150. -/
theorem c2_ai_path_clamped_witness :
    (buildATSFromAIParsed ⟨some 150, none, none, none⟩).overall_score = 100 ∧
    (0 ≤ ("format_structure", (15:ℤ)).2 ∧ ("format_structure", (15:ℤ)).2 ≤ 25) := by
  have h := c2_ai_path_clamped ⟨some 150, none, none, none⟩
  exact ⟨h.2.2 rfl, h.2.1 ("format_structure", 15) (by decide)⟩

/-! ### Empty-text rejection (C8) -/

/-- C8: an upload whose extracted text is blank after trimming is rejected
by the analyze endpoint with the client-visible input error before any
analysis runs; no `CompleteResumeAnalysis` is produced. -/
theorem c8_empty_text_rejected (rawText filename : String)
    (secOutcome : Option (List ParsedSectionData)) (atsOutcome : Option ParsedATS)
    (crash : Bool) (t : ℚ) (h : pyStrip rawText = "") :
    analyzeResumeEndpoint rawText filename secOutcome atsOutcome crash t =
      Except.error "No text content found in file" := by
  unfold analyzeResumeEndpoint
  rw [if_pos h]

/-- Witness for C8 at a whitespace-only extracted text. -/
theorem c8_empty_text_rejected_witness :
    pyStrip "   " = "" ∧
    analyzeResumeEndpoint "   " "resume.txt" none none false 0 =
      Except.error "No text content found in file" :=
  ⟨by decide, c8_empty_text_rejected "   " "resume.txt" none none false 0 (by decide)⟩

/-! ### Analyzer totality and success flag (C9) -/

/-- C9: `analyze_complete_resume` always returns a `CompleteResumeAnalysis`
(the embedding is total, so no exception propagates): on the normal path
`success` is `true` and the two Ollama-backed steps supply sections and
score; when the `try` block raises, `success` is `false` and the sections
and score come from the rule-based fallback extractor and scorer. -/
theorem c9_analysis_total_and_flagged (rawText filename : String)
    (secOutcome : Option (List ParsedSectionData)) (atsOutcome : Option ParsedATS)
    (t : ℚ) :
    (analyzeCompleteResume rawText filename secOutcome atsOutcome false t).success = true ∧
    (analyzeCompleteResume rawText filename secOutcome atsOutcome true t).success = false ∧
    (analyzeCompleteResume rawText filename secOutcome atsOutcome true t).sections =
      fallbackSectionExtraction rawText ∧
    (analyzeCompleteResume rawText filename secOutcome atsOutcome true t).ats_analysis =
      fallbackATSScoring (fallbackSectionExtraction rawText) ∧
    (analyzeCompleteResume rawText filename secOutcome atsOutcome false t).sections =
      extractSectionsWithOllama rawText secOutcome ∧
    (analyzeCompleteResume rawText filename secOutcome atsOutcome false t).ats_analysis =
      scoreATSWithOllama (extractSectionsWithOllama rawText secOutcome) atsOutcome ∧
    (analyzeCompleteResume rawText filename secOutcome atsOutcome false t).raw_text = rawText ∧
    (analyzeCompleteResume rawText filename secOutcome atsOutcome true t).raw_text = rawText :=
  ⟨rfl, rfl, rfl, rfl, rfl, rfl, rfl, rfl⟩

/-! ### Legacy endpoint reshaping (C10) -/

/-- C10: the legacy `/parse-resume` response is exactly the `/analyze-resume`
analysis reshaped — the rebuilt section dictionaries are field-for-field the
analysis's sections in order, `success`, `filename` and `raw_text` are
copied, and `metadata.ats_score` is the analysis's overall ATS score. -/
theorem c10_legacy_reshape (analysis : CompleteResumeAnalysis) :
    (parseResumeLegacy analysis).success = analysis.success ∧
    (parseResumeLegacy analysis).filename = analysis.filename ∧
    (parseResumeLegacy analysis).sections = analysis.sections ∧
    (parseResumeLegacy analysis).metadata_ats_score =
      analysis.ats_analysis.overall_score ∧
    (parseResumeLegacy analysis).metadata_processing_time =
      analysis.processing_time ∧
    (parseResumeLegacy analysis).raw_text = analysis.raw_text := by
  refine ⟨rfl, rfl, ?_, rfl, rfl, rfl⟩
  show analysis.sections.map
    (fun s => (⟨s.type, s.title, s.content, s.confidence⟩ : ResumeSection)) =
    analysis.sections
  have he : (fun s : ResumeSection =>
      (⟨s.type, s.title, s.content, s.confidence⟩ : ResumeSection)) = id := rfl
  rw [he, List.map_id]

end AiApply
